import Mathlib

/-!
Verification development for the Power BI custom-visual detector scripts
(`get_reports_pbi_sp.py` and `get_reports_pbi_interactive.py`).

The Python code is embedded shallowly:
  * byte blobs are `List Nat` (each element one byte);
  * Python `str.decode` for the `utf-16-le` and `utf-8` codecs is
    implemented directly on byte lists, returning `none` where Python
    raises `UnicodeDecodeError`;
  * `json.loads` is implemented as a fuel-based recursive reader over
    characters, returning `none` where Python raises `JSONDecodeError`;
  * a PBIX file (a zip container) is either `malformed` (opening it
    raises, caught by the outer handler) or a list of named entries;
  * every network call made by the per-report analysis loop is an input
    of the model (an environment record), and Python exceptions that
    escape the loop body are modelled with an explicit outcome
    constructor.
-/

/-- Named characters, used instead of punctuation character literals. -/
def quoteC : Char := Char.ofNat 34

def bslashC : Char := Char.ofNat 92

def slashC : Char := Char.ofNat 47

def lbraceC : Char := Char.ofNat 123

def rbraceC : Char := Char.ofNat 125

def lbrackC : Char := Char.ofNat 91

def rbrackC : Char := Char.ofNat 93

def commaC : Char := Char.ofNat 44

def colonC : Char := Char.ofNat 58

def minusC : Char := Char.ofNat 45

def plusC : Char := Char.ofNat 43

def dotC : Char := Char.ofNat 46

def tabC : Char := Char.ofNat 9

def lfC : Char := Char.ofNat 10

def crC : Char := Char.ofNat 13

/-- Substring test on character lists: does `l` contain `s` as a
contiguous run?  Models the Python expression `s in l` for strings. -/
def containsAux (s : List Char) : List Char → Bool
  | [] => s.isEmpty
  | c :: t => s.isPrefixOf (c :: t) || containsAux s t

/-- Python `sub in hay` for strings (case-sensitive substring test). -/
def strContains (hay sub : String) : Bool :=
  containsAux sub.data hay.data

/-- Python `name.endswith("/")`. -/
def endsWithSlash (s : String) : Bool :=
  s.data.getLast? == some slashC

/-- Python `hay.startswith(pre)`, computed on the character lists. -/
def strStartsWith (hay pre : String) : Bool :=
  pre.data.isPrefixOf hay.data

/-- Python `s.lower()`, computed on the character list.  `Char.toLower`
lowercases ASCII letters only, which agrees with Python on every
identifier appearing here. -/
def strToLower (s : String) : String :=
  String.mk (s.data.map Char.toLower)

/-- JSON values as produced by `json.loads`.  Numeric literals keep
their source token (no claim inspects a numeric value).  Objects keep
their key/value pairs in source order; lookups take the last binding of
a key, matching the last-wins behaviour of building a Python dict. -/
inductive JValue where
  | jnull
  | jbool (b : Bool)
  | jnum (tok : String)
  | jstr (s : String)
  | jarr (elems : List JValue)
  | jobj (fields : List (String × JValue))

/-- Last-wins key lookup in an object's field list (Python dicts built
by the json decoder keep the last duplicate). -/
def jget : List (String × JValue) → String → Option JValue
  | [], _ => none
  | (k, v) :: t, key =>
    match jget t key with
    | some r => some r
    | none => if k = key then some v else none

/-- Python `==` between a decoded JSON element and a string literal. -/
def jeqStr (key : String) : JValue → Bool
  | .jstr s => s = key
  | _ => false

/-- Decode a byte list as UTF-16 little endian, Python
`bytes.decode("utf-16-le")` with strict error handling: `none` models a
raised `UnicodeDecodeError` (odd length, i.e. truncated data, or an
unpaired surrogate). -/
def utf16leDecode : List Nat → Option (List Char)
  | [] => some []
  | [_] => none
  | lo :: hi :: rest =>
    let u := lo + 256 * hi
    if 0xD800 ≤ u ∧ u ≤ 0xDBFF then
      match rest with
      | lo2 :: hi2 :: rest2 =>
        let u2 := lo2 + 256 * hi2
        if 0xDC00 ≤ u2 ∧ u2 ≤ 0xDFFF then
          match utf16leDecode rest2 with
          | some cs => some (Char.ofNat (0x10000 + (u - 0xD800) * 1024 + (u2 - 0xDC00)) :: cs)
          | none => none
        else none
      | _ => none
    else if 0xDC00 ≤ u ∧ u ≤ 0xDFFF then none
    else
      match utf16leDecode rest with
      | some cs => some (Char.ofNat u :: cs)
      | none => none

/-- Decode a byte list as UTF-8, Python `bytes.decode("utf-8")` with
strict error handling: `none` models a raised `UnicodeDecodeError`
(invalid leading byte, bad continuation byte, overlong form, surrogate
code point, value above U+10FFFF, or truncated sequence). -/
def utf8Decode : List Nat → Option (List Char)
  | [] => some []
  | b :: t =>
    if b < 0x80 then
      match utf8Decode t with
      | some cs => some (Char.ofNat b :: cs)
      | none => none
    else if b < 0xC2 then none
    else if b < 0xE0 then
      match t with
      | b2 :: t2 =>
        if 0x80 ≤ b2 ∧ b2 < 0xC0 then
          match utf8Decode t2 with
          | some cs => some (Char.ofNat ((b - 0xC0) * 64 + (b2 - 0x80)) :: cs)
          | none => none
        else none
      | _ => none
    else if b < 0xF0 then
      match t with
      | b2 :: b3 :: t3 =>
        let lo2 := if b = 0xE0 then 0xA0 else 0x80
        let hi2 := if b = 0xED then 0xA0 else 0xC0
        if (lo2 ≤ b2 ∧ b2 < hi2) ∧ (0x80 ≤ b3 ∧ b3 < 0xC0) then
          match utf8Decode t3 with
          | some cs =>
            some (Char.ofNat ((b - 0xE0) * 4096 + (b2 - 0x80) * 64 + (b3 - 0x80)) :: cs)
          | none => none
        else none
      | _ => none
    else if b < 0xF5 then
      match t with
      | b2 :: b3 :: b4 :: t4 =>
        let lo2 := if b = 0xF0 then 0x90 else 0x80
        let hi2 := if b = 0xF4 then 0x90 else 0xC0
        if (lo2 ≤ b2 ∧ b2 < hi2) ∧ (0x80 ≤ b3 ∧ b3 < 0xC0) ∧ (0x80 ≤ b4 ∧ b4 < 0xC0) then
          match utf8Decode t4 with
          | some cs =>
            some (Char.ofNat
              ((b - 0xF0) * 262144 + (b2 - 0x80) * 4096 + (b3 - 0x80) * 64 + (b4 - 0x80)) :: cs)
          | none => none
        else none
      | _ => none
    else none

/-- Encode one character as UTF-16 little endian bytes (surrogate pair
above U+FFFF).  Used to build concrete test payloads. -/
def utf16leEncodeChar (c : Char) : List Nat :=
  let n := c.toNat
  if n < 0x10000 then [n % 256, n / 256]
  else
    let m := n - 0x10000
    let hiU := 0xD800 + m / 1024
    let loU := 0xDC00 + m % 1024
    [hiU % 256, hiU / 256, loU % 256, loU / 256]

/-- Encode a string as UTF-16 little endian (Python `s.encode("utf-16-le")`). -/
def utf16leEncode (s : String) : List Nat :=
  (s.data.map utf16leEncodeChar).flatten

/-- Encode one character as UTF-8 bytes. -/
def utf8EncodeChar (c : Char) : List Nat :=
  let n := c.toNat
  if n < 0x80 then [n]
  else if n < 0x800 then [0xC0 + n / 64, 0x80 + n % 64]
  else if n < 0x10000 then [0xE0 + n / 4096, 0x80 + n / 64 % 64, 0x80 + n % 64]
  else [0xF0 + n / 262144, 0x80 + n / 4096 % 64, 0x80 + n / 64 % 64, 0x80 + n % 64]

/-- Encode a string as UTF-8 (Python `s.encode("utf-8")`). -/
def utf8Encode (s : String) : List Nat :=
  (s.data.map utf8EncodeChar).flatten

/-- Skip JSON whitespace (space, tab, newline, carriage return), the
`[ \t\n\r]*` step of the json module. -/
def skipWs : List Char → List Char
  | c :: t => if c = ' ' || c = tabC || c = lfC || c = crC then skipWs t else c :: t
  | [] => []

/-- Value of one hexadecimal digit. -/
def hexDigitVal (c : Char) : Option Nat :=
  if c.isDigit then some (c.toNat - 48)
  else if 'a' ≤ c ∧ c ≤ 'f' then some (c.toNat - 87)
  else if 'A' ≤ c ∧ c ≤ 'F' then some (c.toNat - 55)
  else none

/-- Resolve one backslash escape inside a JSON string literal; the
input starts just after the backslash.  `none` models a
`JSONDecodeError` (invalid escape or malformed `u` escape).  Python
keeps a lone surrogate from a `u` escape inside the `str`; Lean
characters cannot hold a surrogate, so that corner (exercised by no
claim) is mapped to U+FFFD. -/
def jescape : List Char → Option (Char × List Char)
  | [] => none
  | e :: t =>
    if e = quoteC then some (quoteC, t)
    else if e = bslashC then some (bslashC, t)
    else if e = slashC then some (slashC, t)
    else if e = 'b' then some (Char.ofNat 8, t)
    else if e = 'f' then some (Char.ofNat 12, t)
    else if e = 'n' then some (lfC, t)
    else if e = 'r' then some (crC, t)
    else if e = 't' then some (tabC, t)
    else if e = 'u' then
      match t with
      | h1 :: h2 :: h3 :: h4 :: t4 =>
        match hexDigitVal h1, hexDigitVal h2, hexDigitVal h3, hexDigitVal h4 with
        | some a, some b, some c, some d =>
          let u := a * 4096 + b * 256 + c * 16 + d
          if 0xD800 ≤ u ∧ u ≤ 0xDBFF then
            match t4 with
            | x :: y :: h5 :: h6 :: h7 :: h8 :: t8 =>
              if x = bslashC ∧ y = 'u' then
                match hexDigitVal h5, hexDigitVal h6, hexDigitVal h7, hexDigitVal h8 with
                | some a2, some b2, some c2, some d2 =>
                  let u2 := a2 * 4096 + b2 * 256 + c2 * 16 + d2
                  if 0xDC00 ≤ u2 ∧ u2 ≤ 0xDFFF then
                    some (Char.ofNat (0x10000 + (u - 0xD800) * 1024 + (u2 - 0xDC00)), t8)
                  else some (Char.ofNat 0xFFFD, t4)
                | _, _, _, _ => some (Char.ofNat 0xFFFD, t4)
              else some (Char.ofNat 0xFFFD, t4)
            | _ => some (Char.ofNat 0xFFFD, t4)
          else if 0xDC00 ≤ u ∧ u ≤ 0xDFFF then some (Char.ofNat 0xFFFD, t4)
          else some (Char.ofNat u, t4)
        | _, _, _, _ => none
      | _ => none
    else none

/-- Parse the body of a JSON string literal (the opening quote already
consumed), returning the decoded characters and the input after the
closing quote.  Unescaped control characters are rejected as in the
json module's strict mode. -/
def jstrChars : Nat → List Char → Option (List Char × List Char)
  | 0, _ => none
  | fuel + 1, cs =>
    match cs with
    | [] => none
    | c :: t =>
      if c = quoteC then some ([], t)
      else if c = bslashC then
        match jescape t with
        | some (ch, t2) =>
          match jstrChars fuel t2 with
          | some (r, rest) => some (ch :: r, rest)
          | none => none
        | none => none
      else if c.toNat < 0x20 then none
      else
        match jstrChars fuel t with
        | some (r, rest) => some (c :: r, rest)
        | none => none

/-- Take a maximal run of decimal digits. -/
def takeDigits : List Char → List Char × List Char
  | [] => ([], [])
  | c :: t =>
    if c.isDigit then
      let (ds, rest) := takeDigits t
      (c :: ds, rest)
    else ([], c :: t)

/-- Maximal match of the json module's number token
`(-?(0|[1-9]\d*))(\.\d+)?([eE][-+]?\d+)?`; `none` when the input does
not start with a number. -/
def numTok (cs : List Char) : Option (List Char × List Char) :=
  let p :=
    match cs with
    | c :: t => if c = minusC then ([c], t) else (([] : List Char), c :: t)
    | [] => ([], [])
  match p.2 with
  | [] => none
  | c :: t =>
    if ¬ c.isDigit then none
    else
      let q :=
        if c = '0' then ([c], t)
        else
          let r := takeDigits t
          (c :: r.1, r.2)
      let f :=
        match q.2 with
        | d :: fr =>
          if d = dotC then
            match takeDigits fr with
            | ([], _) => (([] : List Char), q.2)
            | (ds, r) => (d :: ds, r)
          else ([], q.2)
        | [] => ([], q.2)
      let e :=
        match f.2 with
        | x :: er =>
          if x = 'e' ∨ x = 'E' then
            let sg :=
              match er with
              | s :: sr => if s = plusC ∨ s = minusC then ([s], sr) else (([] : List Char), er)
              | [] => ([], er)
            match takeDigits sg.2 with
            | ([], _) => (([] : List Char), f.2)
            | (ds, r) => (x :: sg.1 ++ ds, r)
          else ([], f.2)
        | [] => ([], f.2)
      some (p.1 ++ q.1 ++ f.1 ++ e.1, e.2)

/-- Consume an exact literal. -/
def dropLit (lit : List Char) (cs : List Char) : Option (List Char) :=
  if lit.isPrefixOf cs then some (cs.drop lit.length) else none

mutual

/-- Parse one JSON value (the json module's `scan_once`).  `none`
models a raised `JSONDecodeError`.  The `NaN` and `Infinity` constants
accepted by the json module are kept as number tokens. -/
def jvalue : Nat → List Char → Option (JValue × List Char)
  | 0, _ => none
  | fuel + 1, cs =>
    match cs with
    | [] => none
    | c :: t =>
      if c = quoteC then
        match jstrChars (t.length + 1) t with
        | some (r, rest) => some (.jstr (String.mk r), rest)
        | none => none
      else if c = lbraceC then
        let t1 := skipWs t
        match t1 with
        | d :: t2 => if d = rbraceC then some (.jobj [], t2) else jobjItems fuel t1 []
        | [] => none
      else if c = lbrackC then
        let t1 := skipWs t
        match t1 with
        | d :: t2 => if d = rbrackC then some (.jarr [], t2) else jarrItems fuel t1 []
        | [] => none
      else if c = 't' then
        match dropLit "true".data (c :: t) with
        | some rest => some (.jbool true, rest)
        | none => none
      else if c = 'f' then
        match dropLit "false".data (c :: t) with
        | some rest => some (.jbool false, rest)
        | none => none
      else if c = 'n' then
        match dropLit "null".data (c :: t) with
        | some rest => some (.jnull, rest)
        | none => none
      else if c = 'N' then
        match dropLit "NaN".data (c :: t) with
        | some rest => some (.jnum "NaN", rest)
        | none => none
      else if c = 'I' then
        match dropLit "Infinity".data (c :: t) with
        | some rest => some (.jnum "Infinity", rest)
        | none => none
      else if c = minusC && (match t with | d :: _ => d == 'I' | [] => false) then
        match dropLit "-Infinity".data (c :: t) with
        | some rest => some (.jnum "-Infinity", rest)
        | none => none
      else if c = minusC ∨ c.isDigit then
        match numTok (c :: t) with
        | some (tk, rest) => some (.jnum (String.mk tk), rest)
        | none => none
      else none

/-- Parse the elements of a non-empty JSON array, positioned at the
first element. -/
def jarrItems : Nat → List Char → List JValue → Option (JValue × List Char)
  | 0, _, _ => none
  | fuel + 1, cs, acc =>
    match jvalue fuel cs with
    | some (v, rest) =>
      match skipWs rest with
      | d :: t =>
        if d = commaC then jarrItems fuel (skipWs t) (acc ++ [v])
        else if d = rbrackC then some (.jarr (acc ++ [v]), t)
        else none
      | [] => none
    | none => none

/-- Parse the members of a non-empty JSON object, positioned at the
first key (which must be a string literal). -/
def jobjItems : Nat → List Char → List (String × JValue) → Option (JValue × List Char)
  | 0, _, _ => none
  | fuel + 1, cs, acc =>
    match cs with
    | c :: t =>
      if c = quoteC then
        match jstrChars (t.length + 1) t with
        | some (k, r1) =>
          match skipWs r1 with
          | d :: r2 =>
            if d = colonC then
              match jvalue fuel (skipWs r2) with
              | some (v, r3) =>
                match skipWs r3 with
                | e :: r4 =>
                  if e = commaC then jobjItems fuel (skipWs r4) (acc ++ [(String.mk k, v)])
                  else if e = rbraceC then some (.jobj (acc ++ [(String.mk k, v)]), r4)
                  else none
                | [] => none
              | none => none
            else none
          | [] => none
        | none => none
      else none
    | [] => none

end

/-- Python `json.loads` on a character list: leading and trailing
whitespace allowed, anything after the value is an error (`Extra
data`). -/
def jparseChars (cs : List Char) : Option JValue :=
  match jvalue (2 * cs.length + 8) (skipWs cs) with
  | some (v, rest) => if (skipWs rest).isEmpty then some v else none
  | none => none

/-- One record of the `visuals` list built by
`extract_visuals_from_pbix` (a Python dict with keys `name`, `type`,
`is_custom`, `page`).  `name`, `type` and `page` hold whatever JSON
value the document supplied, as in Python. -/
structure VisualInfo where
  name : JValue
  type : JValue
  is_custom : Bool
  page : JValue

/-- Python membership `key in v` for a decoded JSON value: key test on
a dict, element equality on a list, substring test on a str; a
`TypeError` (not iterable) on anything else is modelled as an error. -/
def memKey (key : String) : JValue → Except Unit Bool
  | .jobj fs => .ok ((jget fs key).isSome)
  | .jarr es => .ok (es.any (jeqStr key))
  | .jstr s => .ok (strContains s key)
  | _ => .error ()

/-- Python subscript `v[key]` with a string key: only a dict supports
it; the `KeyError`/`TypeError` cases are modelled as an error. -/
def getKey (key : String) : JValue → Except Unit JValue
  | .jobj fs =>
    match jget fs key with
    | some v => .ok v
    | none => .error ()
  | _ => .error ()

/-- Python iteration `for x in v`: a list yields its elements, a dict
its keys, a str its one-character substrings; a `TypeError` (not
iterable) on anything else is modelled as an error. -/
def iterElems : JValue → Except Unit (List JValue)
  | .jarr es => .ok es
  | .jobj fs => .ok (fs.map (fun kv => .jstr kv.1))
  | .jstr s => .ok (s.data.map (fun c => .jstr (String.mk [c])))
  | _ => .error ()

/-- Python `v.get(key, dflt)`: only a dict has `.get`; the
`AttributeError` on anything else is modelled as an error. -/
def dictGet (v : JValue) (key : String) (dflt : JValue) : Except Unit JValue :=
  match v with
  | .jobj fs => .ok ((jget fs key).getD dflt)
  | _ => .error ()

/-- Mantissa of a number token (the part before any exponent). -/
def mantissaOf (tok : List Char) : List Char :=
  tok.takeWhile (fun c => c ≠ 'e' ∧ c ≠ 'E')

/-- Python falsiness of the float/int behind a number token: zero is
falsy; `NaN` and `Infinity` are truthy. -/
def jnumZero (tok : String) : Bool :=
  if strContains tok "N" || strContains tok "I" then false
  else !(mantissaOf tok.data).any (fun c => c.isDigit && c ≠ '0')

namespace SP

/-- The `builtin_visuals` reference set of `get_reports_pbi_sp.py`
(lines 388-400), in source order. -/
def builtin_visuals : List String := [
  "barChart", "clusteredBarChart", "clusteredColumnChart", "columnChart",
  "lineChart", "areaChart", "lineClusteredColumnComboChart", "lineStackedColumnComboChart",
  "pieChart", "donutChart", "funnel", "gauge", "card", "multiRowCard",
  "table", "matrix", "slicer", "map", "filledMap", "shape", "image",
  "textbox", "scatterChart", "pivotTable", "treemap", "waterfallChart",
  "hundredPercentStackedBarChart", "hundredPercentStackedColumnChart",
  "ribbonChart", "kpi", "decompositionTreeVisual",
  "stackedBarChart", "stackedColumnChart", "lineStackedAreaChart",
  "hundredPercentStackedAreaChart", "stackedAreaChart",
  "ribbon", "actionButton", "basicShape"]

/-- The `custom_prefixes` list of `get_reports_pbi_sp.py` (line 418). -/
def custom_prefixes : List String := ["PBI_CV", "custom", "Custom"]

/-- `is_custom_visual` of `get_reports_pbi_sp.py` (lines 379-424) on a
string argument: empty or `"Unknown"` first, then a case-sensitive
membership test, then the dot, length and vendor rules, with a
conservative built-in default. -/
def is_custom_visual (visual_type : String) : Bool :=
  if visual_type = "" || visual_type = "Unknown" then false
  else if builtin_visuals.contains visual_type then false
  else if strContains visual_type "." then true
  else if visual_type.length > 25 then true
  else if custom_prefixes.any (fun p => strStartsWith visual_type p) then true
  else false

/-- `is_custom_visual` applied to an arbitrary decoded JSON value, as
the extractors do.  Falsy values (`None`, `False`, zero, empty str,
empty containers) return `False` at the first guard; a truthy
non-string reaches the containment tests, which raise a `TypeError` in
Python (unhashable containers at the set test, `in` on an int or bool
at the dot test) — modelled as an error. -/
def isCustomJ : JValue → Except Unit Bool
  | .jstr s => .ok (is_custom_visual s)
  | .jnull => .ok false
  | .jbool b => if b then .error () else .ok false
  | .jnum tok => if jnumZero tok then .ok false else .error ()
  | .jarr es => if es.isEmpty then .ok false else .error ()
  | .jobj fs => if fs.isEmpty then .ok false else .error ()

end SP

namespace Interactive

/-- The `builtin_visuals` reference set of
`get_reports_pbi_interactive.py` (lines 227-235), in source order. -/
def builtin_visuals : List String := [
  "clusteredBarChart", "clusteredColumnChart", "hundredPercentStackedBarChart",
  "hundredPercentStackedColumnChart", "lineChart", "areaChart", "stackedAreaChart",
  "lineStackedColumnComboChart", "lineClusteredColumnComboChart", "ribbonChart",
  "waterfallChart", "funnelChart", "scatterChart", "pieChart", "donutChart",
  "gauge", "card", "multiRowCard", "kpi", "slicer", "table", "matrix",
  "filledMap", "map", "shape", "image", "textbox", "treemap", "basicShape",
  "actionButton", "columnChart", "barChart", "pivotTable"]

/-- `is_custom_visual` of `get_reports_pbi_interactive.py` (lines
220-248): the input is lowercased before the membership test (the set
itself keeps camel case), then the dot, length and `PBI_CV_` rules. -/
def is_custom_visual (visual_type : String) : Bool :=
  if builtin_visuals.contains (strToLower visual_type) then false
  else if strContains visual_type "."
      || visual_type.length > 25
      || strStartsWith visual_type "PBI_CV_" then true
  else false

/-- `is_custom_visual` applied to an arbitrary decoded JSON value: the
function immediately calls `.lower()`, so every non-string argument
raises an `AttributeError` in Python — modelled as an error. -/
def isCustomJ : JValue → Except Unit Bool
  | .jstr s => .ok (is_custom_visual s)
  | _ => .error ()

end Interactive

/-- Process one element of a section's `visualContainers` list, the
per-container body of `extract_visuals_from_pbix`: when a `config`
member exists its value is fed to `json.loads` (a non-string value or a
malformed document raises), then `singleVisual.visualType` is read with
defaults and classified.  `ok none` is the skip when `config` is
absent; an error models an escaping exception. -/
def processContainer (cls : JValue → Except Unit Bool) (sectionName : JValue)
    (container : JValue) : Except Unit (Option VisualInfo) :=
  match memKey "config" container with
  | .error e => .error e
  | .ok false => .ok none
  | .ok true =>
    match getKey "config" container with
    | .error e => .error e
    | .ok (.jstr s) =>
      match jparseChars s.data with
      | some config =>
        match dictGet config "singleVisual" (.jobj []) with
        | .error e => .error e
        | .ok sv =>
          match dictGet sv "visualType" (.jstr "Unknown") with
          | .error e => .error e
          | .ok vt =>
            match dictGet config "name" (.jstr "Unnamed") with
            | .error e => .error e
            | .ok nm =>
              match cls vt with
              | .error e => .error e
              | .ok isC => .ok (some ⟨nm, vt, isC, sectionName⟩)
      | none => .error ()
    | .ok _ => .error ()

/-- Fold `processContainer` over the container list.  The boolean
records whether an exception escaped; the visual records appended
before it are kept, as the Python list survives the raise. -/
def processContainers (cls : JValue → Except Unit Bool) (sectionName : JValue) :
    List JValue → List VisualInfo × Bool
  | [] => ([], false)
  | c :: t =>
    match processContainer cls sectionName c with
    | .error _ => ([], true)
    | .ok none => processContainers cls sectionName t
    | .ok (some vi) =>
      let r := processContainers cls sectionName t
      (vi :: r.1, r.2)

/-- Process one element of the `sections` list: read `displayName` with
its default, then walk `visualContainers` when present.  A non-dict
section raises at `.get` in Python — modelled as an error. -/
def processSection (cls : JValue → Except Unit Bool) (sec : JValue) :
    List VisualInfo × Bool :=
  match sec with
  | .jobj fs =>
    let sectionName := (jget fs "displayName").getD (.jstr "Unnamed Section")
    match jget fs "visualContainers" with
    | some vcs =>
      match iterElems vcs with
      | .error _ => ([], true)
      | .ok elems => processContainers cls sectionName elems
    | none => ([], false)
  | _ => ([], true)

/-- Fold over the sections, stopping at the first escaping exception
and keeping the records collected before it. -/
def processSections (cls : JValue → Except Unit Bool) :
    List JValue → List VisualInfo × Bool
  | [] => ([], false)
  | s :: t =>
    let r := processSection cls s
    if r.2 then r
    else
      let rest := processSections cls t
      (r.1 ++ rest.1, rest.2)

/-- Process one decoded Layout document: the `if "sections" in
layout_data` guard, the subscript, and the section walk. -/
def processLayout (cls : JValue → Except Unit Bool) (doc : JValue) :
    List VisualInfo × Bool :=
  match memKey "sections" doc with
  | .error _ => ([], true)
  | .ok false => ([], false)
  | .ok true =>
    match getKey "sections" doc with
    | .error _ => ([], true)
    | .ok sv =>
      match iterElems sv with
      | .error _ => ([], true)
      | .ok secs => processSections cls secs

/-- Process one Layout entry's payload, with the exception routing of
the source: the UTF-16-LE attempt is wrapped in
`except UnicodeDecodeError` only, so a decode failure falls back to
UTF-8, while a JSON or shape error after a successful decode escapes to
the outer handler and aborts the whole enumeration (second component
`true`).  The UTF-8 retry is wrapped in `except Exception`, so every
failure there merely skips the entry. -/
def tryEntry (cls : JValue → Except Unit Bool) (payload : List Nat) :
    List VisualInfo × Bool :=
  match utf16leDecode payload with
  | some cs =>
    match jparseChars cs with
    | none => ([], true)
    | some doc => processLayout cls doc
  | none =>
    match utf8Decode payload with
    | none => ([], false)
    | some cs =>
      match jparseChars cs with
      | none => ([], false)
      | some doc => ((processLayout cls doc).1, false)

/-- One entry of the zip container, as seen through
`zip_file.namelist()` and `zip_file.read(name)`. -/
structure ZEntry where
  name : String
  payload : List Nat

/-- A PBIX byte blob as the extractor sees it: either `zipfile.ZipFile`
raises on it (`malformed`) or it opens into a list of entries. -/
inductive Blob where
  | malformed
  | container (entries : List ZEntry)

/-- Enumerate the entries, processing those whose name contains
`Layout` and does not end in `/`; an escaping exception returns the
records collected so far. -/
def extractVisualsWith (cls : JValue → Except Unit Bool) :
    List ZEntry → List VisualInfo
  | [] => []
  | e :: t =>
    if strContains e.name "Layout" && !(endsWithSlash e.name) then
      let r := tryEntry cls e.payload
      if r.2 then r.1 else r.1 ++ extractVisualsWith cls t
    else extractVisualsWith cls t

/-- `extract_visuals_from_pbix` of `get_reports_pbi_sp.py` (lines
140-215): the whole body is wrapped in `except Exception`, so a blob
that cannot be opened as a zip container returns the (empty) `visuals`
list, exactly like a successful parse with no visuals. -/
def SP.extract_visuals_from_pbix (blob : Blob) : List VisualInfo :=
  match blob with
  | .malformed => []
  | .container es => extractVisualsWith SP.isCustomJ es

/-- `extract_visuals_from_pbix` of `get_reports_pbi_interactive.py`
(lines 145-217): textually identical to the sp version except that it
calls the interactive classifier. -/
def Interactive.extract_visuals_from_pbix (blob : Blob) : List VisualInfo :=
  match blob with
  | .malformed => []
  | .container es => extractVisualsWith Interactive.isCustomJ es

/-- The observable part of an export HTTP response
(`GET .../reports/{id}/Export`): status, body bytes (as the blob the
extractor will see), and the error code the sp script reads from the
JSON body of a failed response — which it only prints. -/
structure HttpResp where
  status : Nat
  content : Blob
  errorCode : String

/-- `export_report_as_pbix` of `get_reports_pbi_sp.py` (lines 119-137):
the content on a 200, otherwise `None` — the error code is printed and
otherwise ignored, and the surrounding `except` also returns `None`. -/
def SP.export_report_as_pbix (r : HttpResp) : Option Blob :=
  if r.status = 200 then some r.content else none

/-- Outcomes of the external calls made while analysing one report:
the direct export response, the result of `clone_report` (`none` when
cloning failed; it swallows its own exceptions), the export response
for the clone (consulted only if a clone exists), whether writing the
downloaded blob to a local file succeeds (`open`/`write` can raise),
and the page list from `get_report_pages` (which returns `[]` on its
own errors). -/
structure ReportEnv where
  directResp : HttpResp
  cloneId : Option String
  cloneResp : HttpResp
  saveOk : Bool
  pages : List String

/-- The per-report result dict of `analyze_workspace_reports` in
`get_reports_pbi_sp.py` (lines 455-464). -/
structure ScanResult where
  workspace : String
  report : String
  report_id : String
  method : String
  num_pages : Nat
  is_directlake : String
  total_visuals : Nat
  custom_visuals : Nat
deriving DecidableEq

/-- How the analysis of one report ends: a normal return carrying the
result record, or a Python exception escaping the loop body.  Either
way the number of `delete_report` calls made for this report is
recorded. -/
inductive Outcome where
  | ok (result : ScanResult) (deletes : Nat)
  | exn (deletes : Nat)
deriving DecidableEq

/-- Page values that a Python dict cannot key on (lists and dicts are
unhashable, so `pages[page]` raises a `TypeError`). -/
def isUnhashableJ : JValue → Bool
  | .jarr _ => true
  | .jobj _ => true
  | _ => false

/-- Equality of hashable decoded JSON values, as Python dict keys
compare.  (Python additionally identifies `1` with `True` and compares
numbers by value; the page names of every claim are strings, where
token equality is exact.) -/
def jflatBeq : JValue → JValue → Bool
  | .jnull, .jnull => true
  | .jbool a, .jbool b => a == b
  | .jnum a, .jnum b => a == b
  | .jstr a, .jstr b => a == b
  | _, _ => false

/-- Number of distinct keys of the `pages` dict built by grouping
visuals by their `page` field (insertion order, first occurrence). -/
def distinctPageCount (ps : List JValue) : Nat :=
  (ps.foldl (fun acc p => if acc.any (jflatBeq p) then acc else acc ++ [p]) []).length

/-- `delete_report` calls made by the cleanup line (`if clone_id:`):
one when a clone id exists, none otherwise.  `delete_report` itself
swallows its own exceptions. -/
def cloneDeletes : Option String → Nat
  | some _ => 1
  | none => 0

/-- The `if pbix_content:` branch of the sp report loop (lines
497-544): save the blob to a local file (an exception here escapes the
loop before the cleanup line — `deletes = 0`), extract visuals, then
either fill in the parse-success fields (including grouping by page,
which raises on an unhashable page value) or mark the export as having
no visuals.  Both normal returns reach the cleanup line. -/
def SP.finishWithPbix (r : ScanResult) (clone_id : Option String) (blob : Blob)
    (saveOk : Bool) : Outcome :=
  if !saveOk then .exn 0
  else
    let visuals := SP.extract_visuals_from_pbix blob
    if !visuals.isEmpty then
      if (visuals.map VisualInfo.page).any isUnhashableJ then .exn 0
      else
        .ok { r with
              method := "Direct Export",
              total_visuals := visuals.length,
              custom_visuals := (visuals.filter (fun v => v.is_custom)).length,
              is_directlake := "No",
              num_pages := distinctPageCount (visuals.map VisualInfo.page) }
          (cloneDeletes clone_id)
    else
      .ok { r with method := "Direct Export (No Visuals)", is_directlake := "No" }
        (cloneDeletes clone_id)

/-- The page-listing fallback branch of the sp report loop (lines
546-561): a non-empty page list gives `Page Listing Only` with its
length, an empty one re-assigns `Failed`. -/
def SP.finishNoPbix (r : ScanResult) (clone_id : Option String)
    (pages : List String) : Outcome :=
  if !pages.isEmpty then
    .ok { r with method := "Page Listing Only", num_pages := pages.length }
      (cloneDeletes clone_id)
  else
    .ok { r with method := "Failed" } (cloneDeletes clone_id)

/-- The body of the per-report loop of `analyze_workspace_reports` in
`get_reports_pbi_sp.py` (lines 454-566): initialise the result record,
try the direct export; on any failure set `is_directlake = "Yes"` and
try clone + export; with a blob in hand run the extraction branch,
otherwise the page-listing fallback. -/
def SP.analyzeReport (workspace_name report_name report_id : String)
    (env : ReportEnv) : Outcome :=
  let result : ScanResult :=
    { workspace := workspace_name, report := report_name, report_id := report_id,
      method := "Failed", num_pages := 0, is_directlake := "Unknown",
      total_visuals := 0, custom_visuals := 0 }
  match SP.export_report_as_pbix env.directResp with
  | some blob => SP.finishWithPbix result none blob env.saveOk
  | none =>
    let result := { result with is_directlake := "Yes" }
    match env.cloneId with
    | none => SP.finishNoPbix result none env.pages
    | some cid =>
      match SP.export_report_as_pbix env.cloneResp with
      | some blob => SP.finishWithPbix result (some cid) blob env.saveOk
      | none => SP.finishNoPbix result (some cid) env.pages

/-- Number of clones created while analysing a report: one exactly
when the direct export failed and `clone_report` returned an id. -/
def SP.clonesCreated (env : ReportEnv) : Nat :=
  if env.directResp.status = 200 then 0 else cloneDeletes env.cloneId

/-- One report as returned by the workspace report listing, together
with the outcomes of the external calls its analysis will make. -/
structure ReportItem where
  name : String
  id : String
  env : ReportEnv

/-- The skip guard at the top of the sp report loop (line 447). -/
def SP.skipName (n : String) : Bool :=
  strContains n "temp_analysis_" || strContains n "temp_clone_for_analysis"

/-- The sp report loop: skip-named reports produce no row; a normal
outcome appends exactly one row; an escaping exception aborts the
workspace, losing every row collected so far (`none`). -/
def SP.analyzeWorkspaceGo (ws : String) :
    List ReportItem → List ScanResult → Option (List ScanResult)
  | [], acc => some acc
  | it :: t, acc =>
    if SP.skipName it.name then SP.analyzeWorkspaceGo ws t acc
    else
      match SP.analyzeReport ws it.name it.id it.env with
      | .ok r _ => SP.analyzeWorkspaceGo ws t (acc ++ [r])
      | .exn _ => none

/-- `analyze_workspace_reports` of `get_reports_pbi_sp.py` (lines
427-570), over the listed reports of one workspace. -/
def SP.analyze_workspace_reports (workspace_name : String)
    (reports : List ReportItem) : Option (List ScanResult) :=
  SP.analyzeWorkspaceGo workspace_name reports []

/-- The per-visual record builder of `extract_visuals_from_scan` in
`get_reports_pbi_sp.py` (lines 351-364): `visual.get("visualType",
"Unknown")` with defaults, classified by the same `is_custom_visual`. -/
def SP.scanVisualInfo (page_name : JValue) (visual : JValue) :
    Except Unit VisualInfo :=
  match dictGet visual "visualType" (.jstr "Unknown") with
  | .error e => .error e
  | .ok vt =>
    match dictGet visual "name" (.jstr "Unnamed") with
    | .error e => .error e
    | .ok nm =>
      match SP.isCustomJ vt with
      | .error e => .error e
      | .ok isC => .ok ⟨nm, vt, isC, page_name⟩

/-- One CSV row of the interactive script's report (its `fieldnames`,
line 403). -/
structure CsvRow where
  workspace : String
  workspace_id : String
  capacity_id : String
  report : String
  report_id : String
  method : String
  num_pages : Nat
  is_directlake : String
  total_visuals : Nat
  custom_visuals : Nat

/-- The `fieldnames` column list of `get_reports_pbi_interactive.py`. -/
def fieldnames : List String :=
  ["workspace", "workspace_id", "capacity_id", "report", "report_id", "method",
   "num_pages", "is_directlake", "total_visuals", "custom_visuals"]

/-- The csv module's minimal quoting: quote a field iff it holds the
delimiter, the quote character, or a line-terminator character. -/
def csvNeedsQuote (s : String) : Bool :=
  s.data.any (fun c => c = commaC || c = quoteC || c = crC || c = lfC)

/-- Double every quote character, the csv module's escape. -/
def csvEscapeQuotes (s : String) : String :=
  String.mk (s.data.foldr (fun c acc => if c = quoteC then quoteC :: quoteC :: acc else c :: acc) [])

/-- Render one field as `csv.writer` does with `QUOTE_MINIMAL`. -/
def csvField (s : String) : String :=
  if csvNeedsQuote s then String.mk [quoteC] ++ csvEscapeQuotes s ++ String.mk [quoteC] else s

/-- The stringified cell values of a row, in `fieldnames` order, as
`DictWriter.writerow` emits them (`str` on the integer counts). -/
def csvCells (r : CsvRow) : List String :=
  [r.workspace, r.workspace_id, r.capacity_id, r.report, r.report_id, r.method,
   toString r.num_pages, r.is_directlake, toString r.total_visuals, toString r.custom_visuals]

/-- One rendered CSV line, with the csv module's default `\r\n`
terminator. -/
def csvRowLine (r : CsvRow) : String :=
  String.intercalate "," ((csvCells r).map csvField) ++ String.mk [crC, lfC]

/-- The header line written once by `writer.writeheader()`. -/
def csvHeaderLine : String :=
  String.intercalate "," (fieldnames.map csvField) ++ String.mk [crC, lfC]

/-- Bytes appended to the sink by one flush: `writer.writerow(result)`
for each result of the batch, in order. -/
def flushRows : List CsvRow → String
  | [] => ""
  | r :: t => csvRowLine r ++ flushRows t

/-- Cumulative sink content of the interactive script's incremental
scheme (lines 401-431): the header is written when the file is
created, then after each workspace its batch of rows is appended.
(The script skips the re-open for an empty batch, which appends
nothing, so modelling every batch is equivalent.) -/
def incrementalCsv (batches : List (List CsvRow)) : String :=
  batches.foldl (fun acc b => acc ++ flushRows b) csvHeaderLine

/-- Sink content of the sp script's single end-of-run flush (lines
614-621): header, then every collected row in order. -/
def singleFlushCsv (rows : List CsvRow) : String :=
  csvHeaderLine ++ flushRows rows

/-- The Layout document of spec §8: one section `Page1` with one
visual container whose `config` string encodes a `card` visual named
`v1`.  133 ASCII characters — an odd byte count in UTF-8, so the
UTF-16-LE attempt raises and the UTF-8 retry is reached. -/
def specDoc : String :=
  "\x7b\"sections\":[\x7b\"displayName\":\"Page1\",\"visualContainers\":[\x7b\"config\":\"\x7b\\\"name\\\":\\\"v1\\\",\\\"singleVisual\\\":\x7b\\\"visualType\\\":\\\"card\\\"\x7d\x7d\"\x7d]\x7d]\x7d"

/-- A Layout document with an empty `sections` list: a report that
parses successfully and has zero visuals. -/
def emptySectionsDoc : String :=
  "\x7b\"sections\":[]\x7d"

/-- A Layout document whose single container's `config` lacks
`singleVisual`, so the extractor falls back to the `"Unknown"` type. -/
def noTypeDoc : String :=
  "\x7b\"sections\":[\x7b\"displayName\":\"P\",\"visualContainers\":[\x7b\"config\":\"\x7b\\\"name\\\":\\\"v7\\\"\x7d\"\x7d]\x7d]\x7d"

/-- The spec document as a container entry, UTF-8 encoded. -/
def specBlobUtf8 : Blob :=
  .container [⟨"Report/Layout", utf8Encode specDoc⟩]

/-- The spec document as a container entry, UTF-16-LE encoded (the
archive's native convention). -/
def specBlobUtf16 : Blob :=
  .container [⟨"Report/Layout", utf16leEncode specDoc⟩]

/-- A well-formed container for a report with zero visuals. -/
def emptyReportBlob : Blob :=
  .container [⟨"Report/Layout", utf16leEncode emptySectionsDoc⟩]

/-- Container for the document without a `singleVisual.visualType`. -/
def noTypeBlob : Blob :=
  .container [⟨"Report/Layout", utf16leEncode noTypeDoc⟩]

/-- The single record the spec document should produce. -/
def specRecord : VisualInfo :=
  ⟨.jstr "v1", .jstr "card", false, .jstr "Page1"⟩

/-- The record produced by the document without a visual type. -/
def noTypeRecord : VisualInfo :=
  ⟨.jstr "v7", .jstr "Unknown", false, .jstr "P"⟩

/-- A dummy failed response for fields that are never consulted. -/
def failedResp : HttpResp :=
  ⟨0, .malformed, ""⟩

/-- Direct export fails with the DirectLake restriction code, a clone
is created and its export succeeds, but writing the blob to disk
raises after the clone exists. -/
def envC2 : ReportEnv :=
  { directResp := ⟨403, .malformed, "ExportData_DisabledForModelWithDirectLakeMode"⟩,
    cloneId := some "c1",
    cloneResp := ⟨200, specBlobUtf16, ""⟩,
    saveOk := false,
    pages := ["p"] }

/-- Direct export fails with the DirectLake restriction code, the
clone exports successfully and its parse yields one visual. -/
def envC3 : ReportEnv :=
  { directResp := ⟨403, .malformed, "ExportData_DisabledForModelWithDirectLakeMode"⟩,
    cloneId := some "c1",
    cloneResp := ⟨200, specBlobUtf16, ""⟩,
    saveOk := true,
    pages := [] }

/-- The result record of analysing a report in `envC3`. -/
def resC3 : ScanResult :=
  ⟨"W", "R", "RID", "Direct Export", 1, "No", 1, 0⟩

/-- Direct export fails with an error code unrelated to DirectLake
(the report does not exist); cloning fails and so does page listing. -/
def envC4 : ReportEnv :=
  { directResp := ⟨404, .malformed, "ItemNotFound"⟩,
    cloneId := none,
    cloneResp := failedResp,
    saveOk := true,
    pages := [] }

/-- The result record of analysing a report in `envC4`. -/
def resC4 : ScanResult :=
  ⟨"W", "R1", "id1", "Failed", 0, "Yes", 0, 0⟩

/-- Direct export succeeds with the no-visual-type container. -/
def envC10 : ReportEnv :=
  { directResp := ⟨200, noTypeBlob, ""⟩,
    cloneId := none,
    cloneResp := failedResp,
    saveOk := true,
    pages := [] }

/-- The result record of analysing a report in `envC10`. -/
def resC10 : ScanResult :=
  ⟨"W", "R", "RID", "Direct Export", 1, "No", 1, 0⟩

/-- A report whose listed name marks it as a temporary analysis clone. -/
def tempItem : ReportItem :=
  ⟨"temp_analysis_12345", "rid1", envC4⟩

/-- An ordinarily named report analysed in `envC4`. -/
def itemC7 : ReportItem :=
  ⟨"R1", "id1", envC4⟩

theorem finishWithPbix_deletes (r : ScanResult) (cl : Option String) (b : Blob) (s : Bool)
    (out : ScanResult) (d : Nat) (h : SP.finishWithPbix r cl b s = Outcome.ok out d) :
    d = cloneDeletes cl := by
  simp only [SP.finishWithPbix] at h
  split at h
  · exact Outcome.noConfusion h
  · split at h
    · split at h
      · exact Outcome.noConfusion h
      · injection h with h1 h2
        exact h2.symm
    · injection h with h1 h2
      exact h2.symm

theorem finishNoPbix_deletes (r : ScanResult) (cl : Option String) (ps : List String)
    (out : ScanResult) (d : Nat) (h : SP.finishNoPbix r cl ps = Outcome.ok out d) :
    d = cloneDeletes cl := by
  simp only [SP.finishNoPbix] at h
  split at h
  · injection h with h1 h2
    exact h2.symm
  · injection h with h1 h2
    exact h2.symm

theorem finishWithPbix_fields (r : ScanResult) (cl : Option String) (b : Blob) (s : Bool)
    (out : ScanResult) (d : Nat) (h : SP.finishWithPbix r cl b s = Outcome.ok out d)
    (hc : r.custom_visuals = 0) (ht : r.total_visuals = 0) :
    out.custom_visuals ≤ out.total_visuals ∧
      (out.method = "Direct Export" ∨ out.method = "Direct Export (No Visuals)") := by
  simp only [SP.finishWithPbix] at h
  split at h
  · exact Outcome.noConfusion h
  · split at h
    · split at h
      · exact Outcome.noConfusion h
      · injection h with h1 h2
        subst h1
        refine ⟨?_, Or.inl rfl⟩
        simpa using List.length_filter_le _ _
    · injection h with h1 h2
      subst h1
      refine ⟨?_, Or.inr rfl⟩
      simp [hc, ht]

theorem finishNoPbix_fields (r : ScanResult) (cl : Option String) (ps : List String)
    (out : ScanResult) (d : Nat) (h : SP.finishNoPbix r cl ps = Outcome.ok out d)
    (hc : r.custom_visuals = 0) (ht : r.total_visuals = 0) :
    out.custom_visuals ≤ out.total_visuals ∧ out.total_visuals = 0 ∧
      (out.method = "Page Listing Only" ∨ out.method = "Failed") := by
  simp only [SP.finishNoPbix] at h
  split at h
  · injection h with h1 h2
    subst h1
    exact ⟨by simp [hc, ht], by simpa using ht, Or.inl rfl⟩
  · injection h with h1 h2
    subst h1
    exact ⟨by simp [hc, ht], by simpa using ht, Or.inr rfl⟩

theorem finishNoPbix_ex (r : ScanResult) (cl : Option String) (ps : List String) :
    ∃ out d, SP.finishNoPbix r cl ps = Outcome.ok out d ∧
      out.is_directlake = r.is_directlake := by
  unfold SP.finishNoPbix
  split
  · exact ⟨_, _, rfl, rfl⟩
  · exact ⟨_, _, rfl, rfl⟩

theorem analyzeWorkspaceGo_length (ws : String) :
    ∀ (items : List ReportItem) (acc res : List ScanResult),
      (∀ it ∈ items, SP.skipName it.name = false) →
      SP.analyzeWorkspaceGo ws items acc = some res →
      res.length = acc.length + items.length := by
  intro items
  induction items with
  | nil =>
    intro acc res _ h
    simp only [SP.analyzeWorkspaceGo] at h
    injection h with h1
    simp [← h1]
  | cons it t ih =>
    intro acc res hskip h
    have hs := hskip it (List.mem_cons_self _ _)
    simp only [SP.analyzeWorkspaceGo, hs, if_false] at h
    cases hout : SP.analyzeReport ws it.name it.id it.env with
    | ok r dd =>
      rw [hout] at h
      have h2 : SP.analyzeWorkspaceGo ws t (acc ++ [r]) = some res := h
      have hlen := ih (acc ++ [r]) res (fun x hx => hskip x (List.mem_cons_of_mem _ hx)) h2
      simp [List.length_append] at hlen ⊢
      omega
    | exn dd =>
      rw [hout] at h
      simp at h

theorem flushRows_append (a b : List CsvRow) :
    flushRows (a ++ b) = flushRows a ++ flushRows b := by
  induction a with
  | nil => simp [flushRows, String.empty_append]
  | cons r t ih => simp [flushRows, ih, String.append_assoc]

theorem incrementalCsv_go (batches : List (List CsvRow)) :
    ∀ acc : String,
      batches.foldl (fun a b => a ++ flushRows b) acc = acc ++ flushRows batches.flatten := by
  induction batches with
  | nil => intro acc; simp [flushRows, String.append_empty]
  | cons b bs ih =>
    intro acc
    simp only [List.foldl, List.flatten, ih, flushRows_append, String.append_assoc]

theorem processContainer_classified (cls : JValue → Except Unit Bool) (sn c : JValue)
    (vi : VisualInfo) (h : processContainer cls sn c = Except.ok (some vi)) :
    cls vi.type = Except.ok vi.is_custom := by
  simp only [processContainer] at h
  repeat' split at h
  all_goals
    first
      | exact Except.noConfusion h
      | (injection h with h1; exact Option.noConfusion h1)
      | (injection h with h1; injection h1 with h2; subst h2; assumption)

theorem processContainers_classified (cls : JValue → Except Unit Bool) (sn : JValue) :
    ∀ (l : List JValue) (v : VisualInfo), v ∈ (processContainers cls sn l).1 →
      cls v.type = Except.ok v.is_custom := by
  intro l
  induction l with
  | nil => intro v hv; simp [processContainers] at hv
  | cons c t ih =>
    intro v hv
    simp only [processContainers] at hv
    split at hv
    · simp at hv
    · exact ih v hv
    · rename_i vi heq
      simp at hv
      rcases hv with h1 | h1
      · subst h1; exact processContainer_classified cls sn c _ heq
      · exact ih v h1

theorem processSection_classified (cls : JValue → Except Unit Bool) (sec : JValue)
    (v : VisualInfo) (hv : v ∈ (processSection cls sec).1) :
    cls v.type = Except.ok v.is_custom := by
  simp only [processSection] at hv
  repeat' split at hv
  all_goals
    first
      | exact processContainers_classified cls _ _ v hv
      | simp at hv

theorem processSections_classified (cls : JValue → Except Unit Bool) :
    ∀ (l : List JValue) (v : VisualInfo), v ∈ (processSections cls l).1 →
      cls v.type = Except.ok v.is_custom := by
  intro l
  induction l with
  | nil => intro v hv; simp [processSections] at hv
  | cons s t ih =>
    intro v hv
    simp only [processSections] at hv
    split at hv
    · exact processSection_classified cls s v hv
    · simp at hv
      rcases hv with h1 | h1
      · exact processSection_classified cls s v h1
      · exact ih v h1

theorem processLayout_classified (cls : JValue → Except Unit Bool) (doc : JValue)
    (v : VisualInfo) (hv : v ∈ (processLayout cls doc).1) :
    cls v.type = Except.ok v.is_custom := by
  simp only [processLayout] at hv
  repeat' split at hv
  all_goals
    first
      | exact processSections_classified cls _ v hv
      | simp at hv

theorem tryEntry_classified (cls : JValue → Except Unit Bool) (payload : List Nat)
    (v : VisualInfo) (hv : v ∈ (tryEntry cls payload).1) :
    cls v.type = Except.ok v.is_custom := by
  simp only [tryEntry] at hv
  repeat' split at hv
  all_goals
    first
      | exact processLayout_classified cls _ v hv
      | simp at hv

theorem extractVisualsWith_classified (cls : JValue → Except Unit Bool) :
    ∀ (es : List ZEntry) (v : VisualInfo), v ∈ extractVisualsWith cls es →
      cls v.type = Except.ok v.is_custom := by
  intro es
  induction es with
  | nil => intro v hv; simp [extractVisualsWith] at hv
  | cons e t ih =>
    intro v hv
    simp only [extractVisualsWith] at hv
    split at hv
    · split at hv
      · exact tryEntry_classified cls _ v hv
      · rcases List.mem_append.mp hv with h1 | h1
        · exact tryEntry_classified cls _ v h1
        · exact ih v h1
    · exact ih v hv

theorem sp_extract_classified (blob : Blob) (v : VisualInfo)
    (hv : v ∈ SP.extract_visuals_from_pbix blob) :
    SP.isCustomJ v.type = Except.ok v.is_custom := by
  cases blob with
  | malformed => simp [SP.extract_visuals_from_pbix] at hv
  | container es => exact extractVisualsWith_classified _ es v hv

/-- C1 (amended): the extractor has no distinguishable failure value —
a blob that cannot be opened as a zip container is caught by the outer
handler and yields the plain empty visual list. -/
theorem C1_malformed_yields_empty_list :
    SP.extract_visuals_from_pbix Blob.malformed = [] := rfl

set_option maxRecDepth 100000 in
set_option maxHeartbeats 2000000 in
/-- C1 counterexample: the malformed blob and a well-formed container
holding a report with zero visuals give the very same empty list, so
no `ArchiveParseFailure` distinguishes them. -/
theorem C1_counterexample :
    SP.extract_visuals_from_pbix Blob.malformed = [] ∧
    SP.extract_visuals_from_pbix emptyReportBlob = [] ∧
    SP.extract_visuals_from_pbix Blob.malformed =
      SP.extract_visuals_from_pbix emptyReportBlob :=
  ⟨rfl, rfl, rfl⟩

set_option maxRecDepth 100000 in
set_option maxHeartbeats 2000000 in
/-- C2 counterexample: a clone is created (`cloneId = some "c1"`), the
clone export succeeds, but saving the blob raises, and the analysis
ends in an exception with zero `delete_report` calls — the cleanup is
not exception-safe. -/
theorem C2_counterexample :
    envC2.cloneId = some "c1" ∧
    SP.analyzeReport "W" "R" "RID" envC2 = Outcome.exn 0 :=
  ⟨rfl, by decide⟩

/-- C2 (amended): on every normal (non-exception) return of a report's
analysis — parse success, empty parse, page fallback or failure — the
number of `delete_report` calls equals the number of clones created
(exactly one when a clone exists, none otherwise); only an exception
raised after clone creation skips the deletion. -/
theorem C2_clone_deleted_exactly_once_on_normal_return (ws rn rid : String)
    (env : ReportEnv) (out : ScanResult) (d : Nat)
    (h : SP.analyzeReport ws rn rid env = Outcome.ok out d) :
    d = SP.clonesCreated env := by
  simp only [SP.analyzeReport] at h
  split at h
  · rename_i blob heq
    have hs : env.directResp.status = 200 := by
      by_contra hne
      simp [SP.export_report_as_pbix, hne] at heq
    rw [finishWithPbix_deletes _ _ _ _ _ _ h]
    simp [SP.clonesCreated, hs, cloneDeletes]
  · rename_i heq
    have hs : ¬ env.directResp.status = 200 := by
      intro hsome
      simp [SP.export_report_as_pbix, hsome] at heq
    split at h
    · rename_i hcl
      rw [finishNoPbix_deletes _ _ _ _ _ h]
      simp [SP.clonesCreated, hs, hcl, cloneDeletes]
    · rename_i cid hcl
      split at h
      · rw [finishWithPbix_deletes _ _ _ _ _ _ h]
        simp [SP.clonesCreated, hs, hcl, cloneDeletes]
      · rw [finishNoPbix_deletes _ _ _ _ _ h]
        simp [SP.clonesCreated, hs, hcl, cloneDeletes]

set_option maxRecDepth 100000 in
set_option maxHeartbeats 2000000 in
/-- C2 witness: in `envC3` (clone created, normal return) the theorem
yields exactly one deletion. -/
theorem C2_witness : (1 : Nat) = SP.clonesCreated envC3 :=
  C2_clone_deleted_exactly_once_on_normal_return "W" "R" "RID" envC3 resC3 1 (by decide)

set_option maxRecDepth 100000 in
set_option maxHeartbeats 2000000 in
/-- C3 counterexample: with the restriction error code on the direct
export and a successful clone export parsing to one visual, the final
record has `method = "Direct Export"` but `is_directlake = "No"` — the
parse-success branch overwrites the earlier `"Yes"`. -/
theorem C3_counterexample :
    envC3.directResp.errorCode = "ExportData_DisabledForModelWithDirectLakeMode" ∧
    SP.analyzeReport "W" "R" "RID" envC3 = Outcome.ok resC3 1 ∧
    resC3.method = "Direct Export" ∧ resC3.is_directlake = "No" :=
  ⟨rfl, by decide, rfl, rfl⟩

/-- C3 (amended): a failed direct export followed by a successful
clone export whose parse yields visuals ends with
`method = "Direct Export"`, `is_directlake = "No"` (the parse-success
branch overwrites the `"Yes"` set at clone time), and one deletion. -/
theorem C3_clone_success_method_and_directlake (ws rn rid : String) (env : ReportEnv)
    (cid : String)
    (hd : ¬ env.directResp.status = 200) (hc : env.cloneId = some cid)
    (hcs : env.cloneResp.status = 200) (hsv : env.saveOk = true)
    (hne : (SP.extract_visuals_from_pbix env.cloneResp.content).isEmpty = false)
    (hh : ((SP.extract_visuals_from_pbix env.cloneResp.content).map VisualInfo.page).any
        isUnhashableJ = false) :
    SP.analyzeReport ws rn rid env =
      Outcome.ok
        { workspace := ws, report := rn, report_id := rid,
          method := "Direct Export",
          num_pages := distinctPageCount
            ((SP.extract_visuals_from_pbix env.cloneResp.content).map VisualInfo.page),
          is_directlake := "No",
          total_visuals := (SP.extract_visuals_from_pbix env.cloneResp.content).length,
          custom_visuals := ((SP.extract_visuals_from_pbix env.cloneResp.content).filter
            (fun v => v.is_custom)).length }
        1 := by
  simp [SP.analyzeReport, SP.export_report_as_pbix, hd, hc, hcs, SP.finishWithPbix, hsv,
    hne, hh, cloneDeletes]

set_option maxRecDepth 100000 in
set_option maxHeartbeats 2000000 in
/-- C3 witness: the amended theorem applied to the concrete `envC3`. -/
theorem C3_witness :
    (¬ envC3.directResp.status = 200) ∧
    SP.analyzeReport "W" "R" "RID" envC3 = Outcome.ok resC3 1 :=
  ⟨by decide,
    (C3_clone_success_method_and_directlake "W" "R" "RID" envC3 "c1"
        (by decide) rfl rfl rfl rfl rfl).trans
      (by rfl)⟩

set_option maxRecDepth 100000 in
set_option maxHeartbeats 2000000 in
/-- C4 counterexample: a direct export failing with an error code that
does not mention DirectLake still produces `is_directlake = "Yes"`,
where the claim requires `Unknown`. -/
theorem C4_counterexample :
    envC4.directResp.errorCode = "ItemNotFound" ∧
    strContains envC4.directResp.errorCode "DirectLake" = false ∧
    SP.analyzeReport "W" "R1" "id1" envC4 = Outcome.ok resC4 0 ∧
    resC4.is_directlake = "Yes" :=
  ⟨rfl, by decide, by decide, rfl⟩

/-- C4 (amended): every direct export failure sets
`is_directlake = "Yes"` unconditionally — the error text is only
printed, never inspected — and the value survives to the final record
whenever no clone export succeeds. -/
theorem C4_any_direct_failure_sets_directlake_yes (ws rn rid : String) (env : ReportEnv)
    (hd : ¬ env.directResp.status = 200)
    (hcl : env.cloneId = none ∨ ¬ env.cloneResp.status = 200) :
    ∃ out d, SP.analyzeReport ws rn rid env = Outcome.ok out d ∧
      out.is_directlake = "Yes" := by
  have hexp : SP.export_report_as_pbix env.directResp = none := by
    simp [SP.export_report_as_pbix, hd]
  rcases hcid : env.cloneId with _ | cid
  · obtain ⟨o, dd, hEq, hDL⟩ := finishNoPbix_ex
      { workspace := ws, report := rn, report_id := rid, method := "Failed",
        num_pages := 0, is_directlake := "Yes", total_visuals := 0, custom_visuals := 0 }
      none env.pages
    refine ⟨o, dd, ?_, by rw [hDL]⟩
    simp [SP.analyzeReport, hexp, hcid, hEq]
  · have hcr : ¬ env.cloneResp.status = 200 := by
      rcases hcl with h1 | h1
      · rw [hcid] at h1; exact Option.noConfusion h1
      · exact h1
    have hexp2 : SP.export_report_as_pbix env.cloneResp = none := by
      simp [SP.export_report_as_pbix, hcr]
    obtain ⟨o, dd, hEq, hDL⟩ := finishNoPbix_ex
      { workspace := ws, report := rn, report_id := rid, method := "Failed",
        num_pages := 0, is_directlake := "Yes", total_visuals := 0, custom_visuals := 0 }
      (some cid) env.pages
    refine ⟨o, dd, ?_, by rw [hDL]⟩
    simp [SP.analyzeReport, hexp, hcid, hexp2, hEq]

set_option maxRecDepth 100000 in
set_option maxHeartbeats 2000000 in
/-- C4 witness: the amended theorem applied to the concrete `envC4`. -/
theorem C4_witness :
    ∃ out d, SP.analyzeReport "W" "R1" "id1" envC4 = Outcome.ok out d ∧
      out.is_directlake = "Yes" :=
  C4_any_direct_failure_sets_directlake_yes "W" "R1" "id1" envC4 (by decide) (Or.inl rfl)

set_option maxRecDepth 100000 in
set_option maxHeartbeats 2000000 in
/-- C5 (amended): exact members of the reference set classify as
built-in and so does `"LINECHART"` (through the conservative default,
not the membership test), but the all-uppercase variant of a built-in
name longer than 25 characters classifies as custom in both scripts:
the step-1 membership test is not case-insensitive in the sense the
claim requires. -/
theorem C5_membership_case_sensitivity :
    (∀ s ∈ SP.builtin_visuals, SP.is_custom_visual s = false) ∧
    SP.is_custom_visual "LINECHART" = false ∧
    SP.is_custom_visual "LINECLUSTEREDCOLUMNCOMBOCHART" = true ∧
    Interactive.is_custom_visual "LINECLUSTEREDCOLUMNCOMBOCHART" = true := by
  refine ⟨by decide, by decide, by decide, by decide⟩

set_option maxRecDepth 100000 in
set_option maxHeartbeats 2000000 in
/-- C5 counterexample: `"LINECLUSTEREDCOLUMNCOMBOCHART"` is a case
variant of the built-in `"lineClusteredColumnComboChart"`, yet both
classifiers return custom for it (29 characters trips the length
rule after the membership test fails to match case-insensitively). -/
theorem C5_counterexample :
    ("lineClusteredColumnComboChart" ∈ SP.builtin_visuals ∧
      SP.is_custom_visual "lineClusteredColumnComboChart" = false) ∧
    strToLower "LINECLUSTEREDCOLUMNCOMBOCHART" = strToLower "lineClusteredColumnComboChart" ∧
    SP.is_custom_visual "LINECLUSTEREDCOLUMNCOMBOCHART" = true ∧
    Interactive.is_custom_visual "LINECLUSTEREDCOLUMNCOMBOCHART" = true := by
  refine ⟨⟨by decide, by decide⟩, by decide, by decide, by decide⟩

set_option maxRecDepth 100000 in
set_option maxHeartbeats 2000000 in
/-- C5 witness: the amended theorem applied at `"lineChart"`. -/
theorem C5_witness :
    "lineChart" ∈ SP.builtin_visuals ∧ SP.is_custom_visual "lineChart" = false :=
  ⟨by decide, C5_membership_case_sensitivity.1 "lineChart" (by decide)⟩

set_option maxRecDepth 100000 in
set_option maxHeartbeats 2000000 in
/-- C6: the §8 document, UTF-8 encoded in a single Layout entry,
parses through the fallback path to exactly one record
`{name v1, type card, page Page1, custom false}`, identical to the
UTF-16-LE (native) encoding of the same document; the interactive
extractor agrees. -/
theorem C6_utf8_fallback_roundtrip :
    SP.extract_visuals_from_pbix specBlobUtf8 = [specRecord] ∧
    SP.extract_visuals_from_pbix specBlobUtf16 = SP.extract_visuals_from_pbix specBlobUtf8 ∧
    Interactive.extract_visuals_from_pbix specBlobUtf8 = [specRecord] :=
  ⟨rfl, rfl, rfl⟩

set_option maxRecDepth 100000 in
set_option maxHeartbeats 2000000 in
/-- C7 counterexample: a listed report whose name contains
`temp_analysis_` is skipped and the workspace run emits zero rows for
one discovered report. -/
theorem C7_counterexample :
    SP.analyze_workspace_reports "W" [tempItem] = some [] ∧
    ([] : List ScanResult).length ≠ [tempItem].length :=
  ⟨by decide, by decide⟩

/-- C7 (amended): when no listed report carries a temp-clone marker in
its name and the workspace analysis returns normally, exactly one row
is emitted per listed report; skip-named reports produce no row and an
escaping exception loses the whole workspace. -/
theorem C7_one_row_per_unskipped_report (ws : String) (items : List ReportItem)
    (res : List ScanResult)
    (hskip : ∀ it ∈ items, SP.skipName it.name = false)
    (h : SP.analyze_workspace_reports ws items = some res) :
    res.length = items.length := by
  have hlen := analyzeWorkspaceGo_length ws items [] res hskip h
  simpa using hlen

set_option maxRecDepth 100000 in
set_option maxHeartbeats 2000000 in
/-- C7 witness: the amended theorem applied to one ordinary report. -/
theorem C7_witness : [resC4].length = [itemC7].length :=
  C7_one_row_per_unskipped_report "W" [itemC7] [resC4] (by decide) (by decide)

/-- C8: every ScanResult produced by a report's analysis satisfies
`customVisuals ≤ totalVisuals`, and `totalVisuals = 0` whenever the
method is `Page Listing Only` or `Failed`. -/
theorem C8_scan_result_invariant (ws rn rid : String) (env : ReportEnv)
    (out : ScanResult) (d : Nat)
    (h : SP.analyzeReport ws rn rid env = Outcome.ok out d) :
    out.custom_visuals ≤ out.total_visuals ∧
      ((out.method = "Page Listing Only" ∨ out.method = "Failed") →
        out.total_visuals = 0) := by
  simp only [SP.analyzeReport] at h
  split at h
  · rcases finishWithPbix_fields _ _ _ _ _ _ h rfl rfl with ⟨hle, hm⟩
    refine ⟨hle, fun hmm => ?_⟩
    rcases hm with h1 | h1 <;> rcases hmm with h2 | h2 <;>
      (rw [h1] at h2; exact absurd h2 (by decide))
  · split at h
    · rcases finishNoPbix_fields _ _ _ _ _ h rfl rfl with ⟨hle, ht0, _⟩
      exact ⟨hle, fun _ => ht0⟩
    · split at h
      · rcases finishWithPbix_fields _ _ _ _ _ _ h rfl rfl with ⟨hle, hm⟩
        refine ⟨hle, fun hmm => ?_⟩
        rcases hm with h1 | h1 <;> rcases hmm with h2 | h2 <;>
          (rw [h1] at h2; exact absurd h2 (by decide))
      · rcases finishNoPbix_fields _ _ _ _ _ h rfl rfl with ⟨hle, ht0, _⟩
        exact ⟨hle, fun _ => ht0⟩

set_option maxRecDepth 100000 in
set_option maxHeartbeats 2000000 in
/-- C8 witness: the invariant at the concrete run of `envC10`. -/
theorem C8_witness :
    resC10.custom_visuals ≤ resC10.total_visuals ∧
      ((resC10.method = "Page Listing Only" ∨ resC10.method = "Failed") →
        resC10.total_visuals = 0) :=
  C8_scan_result_invariant "W" "R" "RID" envC10 resC10 0 (by decide)

/-- C9: splitting a row sequence into per-workspace flush batches of
arbitrary sizes and appending each batch leaves the sink byte-identical
to one single end-of-run flush of the whole sequence — same rows, same
order, header written once. -/
theorem C9_incremental_flush_eq_single_flush (batches : List (List CsvRow)) :
    incrementalCsv batches = singleFlushCsv batches.flatten := by
  simp [incrementalCsv, singleFlushCsv, incrementalCsv_go]

set_option maxRecDepth 100000 in
set_option maxHeartbeats 2000000 in
/-- C10: the scanner-path classifier maps the empty string and
`"Unknown"` to built-in; a container whose config lacks
`singleVisual.visualType` yields a record typed `"Unknown"`
(extractor and scan-path builder alike) that is counted in
`total_visuals` but not in `custom_visuals`; and in general every
extracted record typed `"Unknown"` has `is_custom = false`. -/
theorem C10_unknown_type_never_custom :
    SP.is_custom_visual "" = false ∧
    SP.is_custom_visual "Unknown" = false ∧
    SP.extract_visuals_from_pbix noTypeBlob = [noTypeRecord] ∧
    SP.scanVisualInfo (.jstr "pg") (.jobj []) =
      Except.ok ⟨.jstr "Unnamed", .jstr "Unknown", false, .jstr "pg"⟩ ∧
    SP.analyzeReport "W" "R" "RID" envC10 = Outcome.ok resC10 0 ∧
    (∀ (blob : Blob) (v : VisualInfo), v ∈ SP.extract_visuals_from_pbix blob →
      v.type = JValue.jstr "Unknown" → v.is_custom = false) := by
  refine ⟨rfl, rfl, rfl, rfl, by decide, ?_⟩
  intro blob v hv ht
  have hcls := sp_extract_classified blob v hv
  rw [ht] at hcls
  simp only [SP.isCustomJ] at hcls
  injection hcls with h1
  rw [← h1]
  decide

set_option maxRecDepth 100000 in
set_option maxHeartbeats 2000000 in
/-- C10 witness: the general clause applied to the concrete
no-visual-type record. -/
theorem C10_witness : noTypeRecord.is_custom = false :=
  C10_unknown_type_never_custom.2.2.2.2.2 noTypeBlob noTypeRecord
    (List.mem_singleton_self noTypeRecord) rfl
